import Mathlib

/-!
Shallow embedding of the EyeClass repository (student registration,
live-session attendance loop, report computation, dashboard counts),
together with theorems settling the specification claims C1-C10.

Machine conventions: Python strings become `String`; `str.strip` becomes
`pyStrip`; Python float fractions become `ℚ` (0.25 and the report
percentages are modelled exactly as rationals); fallible externals
(DeepFace calls, file existence) become oracle parameters.
-/

namespace EyeClass

/-- A row of `students.csv` (header
`roll_no,name,department,section,image_path,email,phone`).
The CSV column `section` is spelled `sect` here because of a reserved word. -/
structure Student where
  roll_no : String
  name : String
  department : String
  sect : String
  image_path : String
  email : String
  phone : String
deriving DecidableEq, Repr

/-- Python `str.strip()`: drop leading and trailing whitespace. -/
def pyStrip (s : String) : String :=
  String.mk (((s.data.dropWhile Char.isWhitespace).reverse.dropWhile Char.isWhitespace).reverse)

/-- Python `str.lower()` (ASCII case folding). -/
def pyLower (s : String) : String :=
  String.mk (s.data.map Char.toLower)

/-- Python `str.isdigit()` as used on the phone field (ASCII-digit inputs):
true exactly when the string is nonempty and every character is a digit. -/
def pyIsdigit (s : String) : Bool :=
  decide (s.data ≠ []) && s.data.all Char.isDigit

/-- Outcome of a registration attempt. `failure` covers every flashed error /
printed error path; `cancelled` is the CLI path that quits before capture. -/
inductive RegResult where
  | failure (msg : String)
  | success
  | cancelled
deriving DecidableEq, Repr

/-- Whether a registration outcome is an error outcome. -/
def RegResult.isFailure : RegResult → Bool
  | .failure _ => true
  | _ => false

/-- Which duplicate field `check_existing` reported. -/
inductive DupField where
  | roll
  | email
  | phone
deriving DecidableEq, Repr

/-- `app.py check_existing`: linear scan of the rows of `students.csv`,
per row checking roll, then email (case-insensitive), then phone, with
Python truthiness guards on both the query and the stored value. -/
def check_existing : List Student → String → String → String → Option DupField
  | [], _, _, _ => none
  | row :: rest, roll_no, email, phone =>
    let row_roll := pyStrip row.roll_no
    let row_email := pyLower (pyStrip row.email)
    let row_phone := pyStrip row.phone
    if roll_no ≠ "" ∧ row_roll = roll_no then some .roll
    else if email ≠ "" ∧ row_email ≠ "" ∧ row_email = pyLower email then some .email
    else if phone ≠ "" ∧ row_phone ≠ "" ∧ row_phone = phone then some .phone
    else check_existing rest roll_no email phone

/-- The POSTed registration form of `app.py` (`photo = some filename` when a
file part was attached, with its client filename). -/
structure RegForm where
  roll_no : String
  name : String
  department : String
  sect : String
  email : String
  phone : String
  photo : Option String
deriving DecidableEq, Repr

/-- `os.path.splitext(filename)[1]` on a bare filename: the suffix starting at
the last dot, where leading dots do not count as extension separators. -/
def pySplitextExt (filename : String) : String :=
  let leading := filename.data.takeWhile (fun c => c = '.')
  let rest := filename.data.drop leading.length
  if rest.any (fun c => c = '.') then
    String.mk ('.' :: (rest.reverse.takeWhile (fun c => c ≠ '.')).reverse)
  else ""

/-- `app.py`: `ext = os.path.splitext(file.filename)[1].lower() or ".jpg"`. -/
def appExt (filename : String) : String :=
  let e := pyLower (pySplitextExt filename)
  if e = "" then ".jpg" else e

/-- `app.py register` (POST branch): strips every field, validates required
fields, email, phone (exactly 10 digits by `isdigit`), uniqueness via
`check_existing`, photo presence; on success appends one row to
`students.csv` and saves the image under `students/<roll_no><ext>`. -/
def registerApp (form : RegForm) (rows : List Student) : RegResult × List Student :=
  let roll_no := pyStrip form.roll_no
  let name := pyStrip form.name
  let department := pyStrip form.department
  let sect := pyStrip form.sect
  let email := pyStrip form.email
  let phone := pyStrip form.phone
  if roll_no = "" ∨ name = "" ∨ department = "" ∨ sect = "" then
    (.failure "Roll No, Name, Department, and Section are required.", rows)
  else if email = "" then
    (.failure "Email is required.", rows)
  else if phone = "" then
    (.failure "Phone number is required.", rows)
  else if pyIsdigit phone = false ∨ phone.length ≠ 10 then
    (.failure "Phone number must contain exactly 10 digits.", rows)
  else
    match check_existing rows roll_no email phone with
    | some _ => (.failure "already registered.", rows)
    | none =>
      match form.photo with
      | none => (.failure "Please upload a profile photo.", rows)
      | some filename =>
        if filename = "" then (.failure "Please upload a profile photo.", rows)
        else
          let image_path := "students/" ++ roll_no ++ appExt filename
          (.success, rows ++ [⟨roll_no, name, department, sect, image_path, email, phone⟩])

/-- `register_student.py student_exists_roll`: linear scan comparing the
stripped stored roll number with the (already stripped) query. -/
def student_exists_roll (rows : List Student) (roll_no : String) : Bool :=
  rows.any (fun row => pyStrip row.roll_no = roll_no)

/-- The interactive answers read by `register_student.py main`
(each is `.strip()`ped at the `input()` call). -/
structure CliInput where
  roll_no : String
  name : String
  department : String
  sect : String
  email : String
  phone : String
deriving DecidableEq, Repr

/-- `register_student.py main`: required fields, email, phone (10 digits),
duplicate roll, camera; `captured` tells whether SPACE was pressed (append)
or the loop ended without a capture (no append). -/
def registerCli (inp : CliInput) (rows : List Student) (cameraOk captured : Bool) :
    RegResult × List Student :=
  let roll_no := pyStrip inp.roll_no
  let name := pyStrip inp.name
  let department := pyStrip inp.department
  let sect := pyStrip inp.sect
  let email := pyStrip inp.email
  let phone := pyStrip inp.phone
  if roll_no = "" ∨ name = "" ∨ department = "" ∨ sect = "" then
    (.failure "Roll No, Name, Department, and Section are required.", rows)
  else if email = "" then
    (.failure "Email is required.", rows)
  else if pyIsdigit phone = false ∨ phone.length ≠ 10 then
    (.failure "Phone number must contain exactly 10 digits.", rows)
  else if student_exists_roll rows roll_no then
    (.failure "already registered. Aborting.", rows)
  else if cameraOk = false then
    (.failure "Could not open camera.", rows)
  else if captured then
    (.success,
     rows ++ [⟨roll_no, name, department, sect, "students/" ++ roll_no ++ ".jpg", email, phone⟩])
  else
    (.cancelled, rows)

/-! ### main.py : constants, attendance dictionary, report computation -/

/-- `main.py`: `FACE_MATCH_THRESHOLD = 0.6`. -/
def FACE_MATCH_THRESHOLD : ℚ := mkRat 6 10

/-- `main.py`: `PROCESS_EVERY_N_FRAMES = 3`. -/
def PROCESS_EVERY_N_FRAMES : Nat := 3

/-- The per-student bookkeeping record held in the attendance dictionary. -/
structure SInfo where
  name : String
  department : String
  sect : String
  email : String
  phone : String
  present : Bool
  frames_present : Nat
  frames_attentive : Nat
  dominant_emotions : List String
deriving DecidableEq, Repr

/-- The fresh record `init_attendance_dict` stores for one student row. -/
def initInfo (s : Student) : SInfo :=
  { name := s.name
    department := s.department
    sect := s.sect
    email := s.email
    phone := s.phone
    present := false
    frames_present := 0
    frames_attentive := 0
    dominant_emotions := [] }

/-- The attendance dictionary, as an insertion-ordered association list
(Python dict semantics: assignment overwrites an existing key in place,
otherwise appends at the end). -/
abbrev Attendance := List (String × SInfo)

/-- `attendance[k] = v` with Python dict semantics. -/
def dictInsert (att : Attendance) (k : String) (v : SInfo) : Attendance :=
  if att.any (fun p => p.1 = k) then
    att.map (fun p => if p.1 = k then (k, v) else p)
  else att ++ [(k, v)]

/-- `main.py init_attendance_dict`: one dictionary entry per student row,
keyed by roll number, with all counters zeroed. -/
def init_attendance_dict (students : List Student) : Attendance :=
  students.foldl (fun att row => dictInsert att row.roll_no (initInfo row)) []

/-- Banker's rounding (Python `round`) of a rational to an integer. -/
def bround (q : ℚ) : ℤ :=
  let f := ⌊q⌋
  let r := q - f
  if r < 1 / 2 then f
  else if 1 / 2 < r then f + 1
  else if f % 2 = 0 then f else f + 1

/-- Python `round(q, 2)` on an exact rational. -/
def round2 (q : ℚ) : ℚ := (bround (q * 100) : ℚ) / 100

/-- `Counter(l).most_common(1)[0][0]`: a most frequent element of `l`, ties
broken towards the earliest occurrence (only a strictly larger count
displaces the current best, and re-scanning a duplicate never displaces). -/
def mostCommon1 (l : List String) : String :=
  match l with
  | [] => "unknown"
  | a :: rest => rest.foldl (fun best e => if l.count best < l.count e then e else best) a

/-- One row of `class_report.csv` as built by `compute_session_report`. -/
structure ReportRow where
  rollNo : String
  name : String
  department : String
  sect : String
  sessionDate : String
  sessionTime : String
  status : String
  presentPct : ℚ
  attentivePct : ℚ
  dominantEmotion : String
deriving DecidableEq, Repr

/-- The row `compute_session_report` emits for one attendance entry. -/
def reportRowOf (total_frames : Nat) (session_date session_time : String)
    (kv : String × SInfo) : ReportRow :=
  let info := kv.2
  let frames_present := info.frames_present
  let frames_attentive := info.frames_attentive
  let emotions_list := info.dominant_emotions
  if frames_present = 0 then
    { rollNo := kv.1
      name := info.name
      department := info.department
      sect := info.sect
      sessionDate := session_date
      sessionTime := session_time
      status := "Absent"
      presentPct := round2 0
      attentivePct := round2 0
      dominantEmotion := "N/A" }
  else
    { rollNo := kv.1
      name := info.name
      department := info.department
      sect := info.sect
      sessionDate := session_date
      sessionTime := session_time
      status := "Present"
      presentPct := round2 ((frames_present : ℚ) / ((max total_frames 1 : Nat) : ℚ) * 100)
      attentivePct := round2 ((frames_attentive : ℚ) / (frames_present : ℚ) * 100)
      dominantEmotion := if emotions_list = [] then "unknown" else mostCommon1 emotions_list }

/-- `main.py compute_session_report`: one output row per attendance entry,
in dictionary order. -/
def compute_session_report (attendance : Attendance) (total_frames : Nat)
    (session_date session_time : String) : List ReportRow :=
  attendance.map (reportRowOf total_frames session_date session_time)

/-! ### main.py : attention heuristic, identification, session loop -/

/-- `main.py estimate_attention_status` (the colour is the BGR tuple the
code draws with). Integer divisions are Python `//`; the 0.25 tolerances
are exact in binary floating point, so `ℚ` models them exactly. -/
def estimate_attention_status (x y w h frame_width frame_height : Nat) :
    String × (Nat × Nat × Nat) :=
  let frame_center_x := frame_width / 2
  let frame_center_y := frame_height / 2
  let face_center_x := x + w / 2
  let face_center_y := y + h / 2
  let tolerance_x : ℚ := (frame_width : ℚ) * (25 / 100)
  let tolerance_y : ℚ := (frame_height : ℚ) * (25 / 100)
  if |(face_center_x : ℚ) - (frame_center_x : ℚ)| < tolerance_x ∧
     |(face_center_y : ℚ) - (frame_center_y : ℚ)| < tolerance_y then
    ("Attentive", (0, 255, 0))
  else
    ("Not attentive", (0, 0, 255))

/-- The scan of `identify_student` over the student rows, carrying the best
`(roll_no, distance)` seen so far. `hasImage` is `os.path.exists` on the
stored image path; `verify` is the DeepFace call, `none` when it raised or
returned no distance. -/
def identifyLoop (hasImage : String → Bool) (verify : String → Option ℚ) :
    List Student → Option (String × ℚ) → Option (String × ℚ)
  | [], best => best
  | row :: rest, best =>
    if hasImage row.image_path then
      match verify row.image_path with
      | none => identifyLoop hasImage verify rest best
      | some distance =>
        match best with
        | none => identifyLoop hasImage verify rest (some (row.roll_no, distance))
        | some (best_roll, best_distance) =>
          if distance < best_distance then
            identifyLoop hasImage verify rest (some (row.roll_no, distance))
          else
            identifyLoop hasImage verify rest (some (best_roll, best_distance))
    else identifyLoop hasImage verify rest best

/-- `main.py identify_student`: the best match is returned only when its
distance is strictly below `FACE_MATCH_THRESHOLD`. -/
def identify_student (students : List Student) (hasImage : String → Bool)
    (verify : String → Option ℚ) : Option String :=
  match identifyLoop hasImage verify students none with
  | some (best_match_roll_no, best_distance) =>
    if best_distance < FACE_MATCH_THRESHOLD then some best_match_roll_no else none
  | none => none

/-- A face box returned by the Haar cascade. -/
structure Face where
  x : Nat
  y : Nat
  w : Nat
  h : Nat
deriving DecidableEq, Repr

/-- The counter update `main.py` performs for one matched student:
mark present, bump `frames_present`, bump `frames_attentive` when the
attention heuristic fired, record the emotion unless it is `"unknown"`. -/
def markPresent (info : SInfo) (attentive : Bool) (emotion : String) : SInfo :=
  { info with
    present := true
    frames_present := info.frames_present + 1
    frames_attentive := info.frames_attentive + (if attentive then 1 else 0)
    dominant_emotions :=
      if emotion ≠ "unknown" then info.dominant_emotions ++ [emotion]
      else info.dominant_emotions }

/-- Per-detected-face body of the heavy branch of the session loop:
emotion API, attention heuristic, identification, then the counter update
guarded by `roll_no is not None and roll_no in attendance`. -/
def updateForFace (identify : Face → Option String) (emotionOf : Face → String)
    (fw fh : Nat) (att : Attendance) (f : Face) : Attendance :=
  let dominant_emotion := emotionOf f
  let attention_status := (estimate_attention_status f.x f.y f.w f.h fw fh).1
  match identify f with
  | none => att
  | some roll_no =>
    if att.any (fun p => p.1 = roll_no) then
      att.map (fun p =>
        if p.1 = roll_no then
          (p.1, markPresent p.2 (attention_status = "Attentive") dominant_emotion)
        else p)
    else att

/-- One iteration of the live loop for an already-captured frame numbered
`total_frames`: when `total_frames % PROCESS_EVERY_N_FRAMES == 0` the heavy
work runs for every detected face (second component: the faces for which the
external APIs were dispatched); otherwise no API is called at all. -/
def processFrame (identify : Face → Option String) (emotionOf : Face → String)
    (total_frames fw fh : Nat) (faces : List Face) (att : Attendance) :
    Attendance × List Face :=
  let do_heavy := total_frames % PROCESS_EVERY_N_FRAMES = 0
  if do_heavy then
    (faces.foldl (updateForFace identify emotionOf fw fh) att, faces)
  else (att, [])

/-- The session loop from frame counter `total_frames`: each captured frame
first increments the counter, then is processed. -/
def runFrom (identify : Face → Option String) (emotionOf : Face → String)
    (fw fh : Nat) (total_frames : Nat) : List (List Face) → Attendance → Attendance
  | [], att => att
  | faces :: rest, att =>
    runFrom identify emotionOf fw fh (total_frames + 1) rest
      (processFrame identify emotionOf (total_frames + 1) fw fh faces att).1

/-- A whole session over the given per-frame face detections. -/
def runSession (identify : Face → Option String) (emotionOf : Face → String)
    (fw fh : Nat) (frames : List (List Face)) (att : Attendance) : Attendance :=
  runFrom identify emotionOf fw fh 0 frames att

/-! ### main.py : writing class_report.csv -/

/-- The header row `pandas.DataFrame.to_csv` writes for the session report. -/
def REPORT_HEADER : List String :=
  ["Roll No", "Name", "Department", "Section", "Session Date", "Session Time",
   "Status", "% Time Present (approx)", "% Time Attentive", "Dominant Emotion"]

/-- The end-of-session write in `main.py main`: `to_csv` with
`mode="a" if file_exists else "w"` and `header=not file_exists`.
The file is a list of CSV records; `none` models a missing file. -/
def appendReport (existing : Option (List (List String)))
    (newRows : List (List String)) : List (List String) :=
  match existing with
  | some lines => lines ++ newRows
  | none => REPORT_HEADER :: newRows

/-! ### dashboard_app.py : home route aggregates -/

/-- `dashboard_app.py home`: `(total_students, present_count, absent_count)`
computed from the loaded students table and report table for today's date. -/
def homeCounts (students : List Student) (reports : List ReportRow)
    (today : String) : Nat × Nat × Nat :=
  let total_students := students.length
  let today_reports := reports.filter (fun r => r.sessionDate = today)
  if today_reports = [] then
    (total_students, 0, total_students)
  else
    (total_students,
     today_reports.countP (fun r => r.status = "Present"),
     today_reports.countP (fun r => r.status = "Absent"))

/-! ### Concrete sample data used by the closed witness instances -/

/-- A sample registered student. -/
def studentW : Student :=
  ⟨"101", "Asha", "CSE", "A", "students/101.jpg", "asha@example.com", "9876543210"⟩

/-- A second sample student with a distinct roll number. -/
def studentW2 : Student :=
  ⟨"102", "Ravi", "CSE", "A", "students/102.jpg", "ravi@example.com", "9123456780"⟩

/-- A one-row sample `students.csv`. -/
def rowsW : List Student := [studentW]

/-- A form that re-submits the roll number of `studentW`. -/
def formDupW : RegForm :=
  { roll_no := "101", name := "Asha", department := "CSE", sect := "A"
    email := "other@example.com", phone := "9000000001", photo := some "face.jpg" }

/-- A CLI input that re-submits the roll number of `studentW`. -/
def cliDupW : CliInput :=
  { roll_no := "101", name := "Asha", department := "CSE", sect := "A"
    email := "other@example.com", phone := "9000000001" }

/-- A form whose phone field has only 9 digits. -/
def formPhoneW : RegForm :=
  { roll_no := "103", name := "Meera", department := "ECE", sect := "B"
    email := "meera@example.com", phone := "12345", photo := some "face.jpg" }

/-- A CLI input whose phone field has only 5 digits. -/
def cliPhoneW : CliInput :=
  { roll_no := "103", name := "Meera", department := "ECE", sect := "B"
    email := "meera@example.com", phone := "12345" }

/-- Sample attendance entry: seen 2 processed frames, attentive once. -/
def infoSeenW : SInfo :=
  { name := "Asha", department := "CSE", sect := "A", email := "asha@example.com"
    phone := "9876543210", present := true, frames_present := 2
    frames_attentive := 1, dominant_emotions := ["happy", "sad", "happy"] }

/-- A sample face box. -/
def faceW : Face := ⟨100, 100, 80, 80⟩

/-- An identification oracle matching every face to roll `"101"`. -/
def identifyW : Face → Option String := fun _ => some "101"

/-- An emotion oracle reporting `"happy"` for every face. -/
def emotionW : Face → String := fun _ => "happy"

/-- A file-existence oracle under which every image path exists. -/
def hasImageW : String → Bool := fun _ => true

/-- A verification oracle: distance 7/10 to `studentW`, 3/10 to `studentW2`. -/
def verifyW : String → Option ℚ :=
  fun p => if p = "students/101.jpg" then some (mkRat 7 10) else some (mkRat 3 10)

/-- A sample report row dated `"2026-10-01"`, status `"Present"`. -/
def reportRowW : ReportRow :=
  { rollNo := "101", name := "Asha", department := "CSE", sect := "A"
    sessionDate := "2026-10-01", sessionTime := "09:00:00", status := "Present"
    presentPct := 50, attentivePct := 50, dominantEmotion := "happy" }

/-! ## Helper lemmas -/

lemma check_existing_ne_none (rows : List Student) (roll email phone : String)
    (hne : roll ≠ "") (h : ∃ row ∈ rows, pyStrip row.roll_no = roll) :
    check_existing rows roll email phone ≠ none := by
  induction rows with
  | nil => simp at h
  | cons row rest ih =>
    obtain ⟨r, hr, hroll⟩ := h
    simp only [check_existing]
    split
    · simp
    · split
      · simp
      · split
        · simp
        · rcases List.mem_cons.mp hr with h1 | h1
          · subst h1
            rename_i hcond _ _
            exact absurd ⟨hne, hroll⟩ hcond
          · exact ih ⟨r, h1, hroll⟩

lemma student_exists_roll_eq_true (rows : List Student) (roll : String)
    (h : ∃ row ∈ rows, pyStrip row.roll_no = roll) :
    student_exists_roll rows roll = true := by
  obtain ⟨r, hr, he⟩ := h
  simp only [student_exists_roll, List.any_eq_true, decide_eq_true_eq]
  exact ⟨r, hr, he⟩

lemma registerApp_dup_roll (form : RegForm) (rows : List Student)
    (h : ∃ row ∈ rows, pyStrip row.roll_no = pyStrip form.roll_no) :
    (registerApp form rows).1.isFailure = true ∧ (registerApp form rows).2 = rows := by
  simp only [registerApp]
  split
  · exact ⟨rfl, rfl⟩
  · rename_i hreq
    split
    · exact ⟨rfl, rfl⟩
    · split
      · exact ⟨rfl, rfl⟩
      · split
        · exact ⟨rfl, rfl⟩
        · have hne : pyStrip form.roll_no ≠ "" := fun h0 => hreq (Or.inl h0)
          have hsome := check_existing_ne_none rows (pyStrip form.roll_no)
            (pyStrip form.email) (pyStrip form.phone) hne h
          split
          · exact ⟨rfl, rfl⟩
          · rename_i heq
            exact absurd heq hsome

lemma registerCli_dup_roll (inp : CliInput) (rows : List Student)
    (cameraOk captured : Bool)
    (h : ∃ row ∈ rows, pyStrip row.roll_no = pyStrip inp.roll_no) :
    (registerCli inp rows cameraOk captured).1.isFailure = true ∧
    (registerCli inp rows cameraOk captured).2 = rows := by
  simp only [registerCli]
  split
  · exact ⟨rfl, rfl⟩
  · split
    · exact ⟨rfl, rfl⟩
    · split
      · exact ⟨rfl, rfl⟩
      · split
        · exact ⟨rfl, rfl⟩
        · rename_i hdup
          exact absurd (student_exists_roll_eq_true rows (pyStrip inp.roll_no) h) hdup

lemma pyIsdigit_eq_false_of_nondigit (s : String) (c : Char)
    (hc : c ∈ s.data) (hd : c.isDigit = false) : pyIsdigit s = false := by
  simp only [pyIsdigit, Bool.and_eq_false_iff]
  right
  simp only [List.all_eq_false]
  exact ⟨c, hc, by simp [hd]⟩

/-- The spec-side notion of an invalid phone field (on its stripped value). -/
def badPhone (phone : String) : Prop :=
  pyStrip phone = "" ∨ (∃ c ∈ (pyStrip phone).data, c.isDigit = false) ∨
    (pyStrip phone).length ≠ 10

lemma registerApp_bad_phone (form : RegForm) (rows : List Student)
    (h : badPhone form.phone) :
    (registerApp form rows).1.isFailure = true ∧ (registerApp form rows).2 = rows := by
  simp only [registerApp]
  split
  · exact ⟨rfl, rfl⟩
  · split
    · exact ⟨rfl, rfl⟩
    · split
      · exact ⟨rfl, rfl⟩
      · split
        · exact ⟨rfl, rfl⟩
        · rename_i hempty hdig
          exfalso
          rcases h with h0 | ⟨c, hc, hd⟩ | hlen
          · exact hempty h0
          · exact hdig (Or.inl (pyIsdigit_eq_false_of_nondigit _ c hc hd))
          · exact hdig (Or.inr hlen)

lemma registerCli_bad_phone (inp : CliInput) (rows : List Student)
    (cameraOk captured : Bool) (h : badPhone inp.phone) :
    (registerCli inp rows cameraOk captured).1.isFailure = true ∧
    (registerCli inp rows cameraOk captured).2 = rows := by
  simp only [registerCli]
  split
  · exact ⟨rfl, rfl⟩
  · split
    · exact ⟨rfl, rfl⟩
    · split
      · exact ⟨rfl, rfl⟩
      · rename_i hdig
        exfalso
        rcases h with h0 | ⟨c, hc, hd⟩ | hlen
        · refine hdig (Or.inl ?_)
          rw [h0]
          rfl
        · exact hdig (Or.inl (pyIsdigit_eq_false_of_nondigit _ c hc hd))
        · exact hdig (Or.inr hlen)

/-! ## Claims -/

/-- C1: whenever the submitted roll number (stripped, as both registration
paths store and compare it) already equals the stripped `roll_no` of some
existing row of `students.csv`, both the web form POST of `app.py` and the
interactive path of `register_student.py` end in an error outcome and leave
the rows of `students.csv` unchanged; the detection itself is the linear
scan `check_existing` / `student_exists_roll`. -/
theorem registration_duplicate_roll_rejected
    (form : RegForm) (inp : CliInput) (rows : List Student)
    (cameraOk captured : Bool)
    (hform : ∃ row ∈ rows, pyStrip row.roll_no = pyStrip form.roll_no)
    (hcli : ∃ row ∈ rows, pyStrip row.roll_no = pyStrip inp.roll_no) :
    (registerApp form rows).1.isFailure = true ∧ (registerApp form rows).2 = rows ∧
    (registerCli inp rows cameraOk captured).1.isFailure = true ∧
    (registerCli inp rows cameraOk captured).2 = rows := by
  obtain ⟨ha1, ha2⟩ := registerApp_dup_roll form rows hform
  obtain ⟨hc1, hc2⟩ := registerCli_dup_roll inp rows cameraOk captured hcli
  exact ⟨ha1, ha2, hc1, hc2⟩

/-- Witness for C1 at a concrete duplicate submission. -/
theorem registration_duplicate_roll_rejected_witness :
    (registerApp formDupW rowsW).1.isFailure = true ∧
    (registerApp formDupW rowsW).2 = rowsW ∧
    (registerCli cliDupW rowsW true true).1.isFailure = true ∧
    (registerCli cliDupW rowsW true true).2 = rowsW :=
  registration_duplicate_roll_rejected formDupW cliDupW rowsW true true
    (by decide) (by decide)

/-- C8: both registration paths reject a phone value that is empty, contains
a non-digit character, or does not have exactly 10 characters: the outcome
is an error and the rows of `students.csv` are unchanged. -/
theorem phone_validation_ten_digits
    (form : RegForm) (inp : CliInput) (rows : List Student)
    (cameraOk captured : Bool)
    (hform : badPhone form.phone) (hcli : badPhone inp.phone) :
    (registerApp form rows).1.isFailure = true ∧ (registerApp form rows).2 = rows ∧
    (registerCli inp rows cameraOk captured).1.isFailure = true ∧
    (registerCli inp rows cameraOk captured).2 = rows := by
  obtain ⟨ha1, ha2⟩ := registerApp_bad_phone form rows hform
  obtain ⟨hc1, hc2⟩ := registerCli_bad_phone inp rows cameraOk captured hcli
  exact ⟨ha1, ha2, hc1, hc2⟩

/-- Witness for C8 at a concrete 5-digit phone submission. -/
theorem phone_validation_ten_digits_witness :
    (registerApp formPhoneW rowsW).1.isFailure = true ∧
    (registerApp formPhoneW rowsW).2 = rowsW ∧
    (registerCli cliPhoneW rowsW true true).1.isFailure = true ∧
    (registerCli cliPhoneW rowsW true true).2 = rowsW :=
  phone_validation_ten_digits formPhoneW cliPhoneW rowsW true true
    (by right; right; decide) (by right; right; decide)

/-- C4: the end-of-session write appends: with an existing file the new
content is exactly the old records followed by the new rows (the old records
are a prefix, unchanged, and no header is re-written), and the header row is
written exactly when the file did not previously exist. -/
theorem class_report_append_only (lines newRows : List (List String)) :
    appendReport (some lines) newRows = lines ++ newRows ∧
    lines <+: appendReport (some lines) newRows ∧
    appendReport none newRows = REPORT_HEADER :: newRows :=
  ⟨rfl, ⟨newRows, rfl⟩, rfl⟩

/-- C7: the dashboard home page reports `total_students` as the number of
student rows; when some report row carries today's date, the present (resp.
absent) count is the number of report rows with today's date and status
`"Present"` (resp. `"Absent"`); when no report row carries today's date the
present count is 0 and the absent count is the number of students. -/
theorem dashboard_home_counts (students : List Student)
    (reports : List ReportRow) (today : String) :
    (homeCounts students reports today).1 = students.length ∧
    ((∃ r ∈ reports, r.sessionDate = today) →
      (homeCounts students reports today).2.1 =
        reports.countP (fun r => decide (r.sessionDate = today) && decide (r.status = "Present")) ∧
      (homeCounts students reports today).2.2 =
        reports.countP (fun r => decide (r.sessionDate = today) && decide (r.status = "Absent"))) ∧
    ((∀ r ∈ reports, r.sessionDate ≠ today) →
      (homeCounts students reports today).2.1 = 0 ∧
      (homeCounts students reports today).2.2 = students.length) := by
  have key : ∀ st : String,
      (reports.filter (fun r => r.sessionDate = today)).countP (fun r => r.status = st) =
      reports.countP (fun r => decide (r.sessionDate = today) && decide (r.status = st)) := by
    intro st
    rw [List.countP_filter]
    exact List.countP_congr fun r _ => by simp [Bool.and_comm]
  simp only [homeCounts]
  split
  · rename_i hempty
    rw [List.filter_eq_nil_iff] at hempty
    refine ⟨rfl, ?_, fun _ => ⟨rfl, rfl⟩⟩
    rintro ⟨r, hr, he⟩
    exact ((hempty r hr) (by simp [he])).elim
  · rename_i hne
    refine ⟨rfl, fun _ => ⟨key "Present", key "Absent"⟩, fun hall => ?_⟩
    exfalso
    refine hne (List.filter_eq_nil_iff.mpr fun r hr => ?_)
    simp only [decide_eq_true_eq]
    exact hall r hr

/-- Witness for C7: the populated-today case and the empty-today case at
concrete tables. -/
theorem dashboard_home_counts_witness :
    (homeCounts [studentW] [reportRowW] "2026-10-01").2.1 =
      [reportRowW].countP
        (fun r => decide (r.sessionDate = "2026-10-01") && decide (r.status = "Present")) ∧
    (homeCounts [studentW] ([] : List ReportRow) "2026-10-01").2.2 = [studentW].length :=
  ⟨((dashboard_home_counts [studentW] [reportRowW] "2026-10-01").2.1 (by decide)).1,
   ((dashboard_home_counts [studentW] ([] : List ReportRow) "2026-10-01").2.2
     (by simp)).2⟩

lemma cast_abs_sub (a b : ℕ) :
    ((|(a : ℤ) - (b : ℤ)| : ℤ) : ℚ) = |(a : ℚ) - (b : ℚ)| := by
  push_cast
  rfl

lemma abs_sub_lt_quarter_iff (a b n : ℕ) :
    |(a : ℚ) - (b : ℚ)| < (n : ℚ) * (25 / 100) ↔
    4 * |(a : ℤ) - (b : ℤ)| < (n : ℤ) := by
  rw [show ((25 : ℚ) / 100) = 1 / 4 from by norm_num, mul_one_div,
    lt_div_iff₀ (show (0 : ℚ) < 4 from by norm_num), mul_comm, ← cast_abs_sub]
  exact_mod_cast Iff.rfl

/-- C6: attention is decided purely from the face box geometry:
`estimate_attention_status` answers `"Attentive"` exactly when the face
center `(x + w//2, y + h//2)` is strictly within a quarter of the frame
width (resp. height) of the frame center `(frame_width//2, frame_height//2)`
on both axes, and answers `"Not attentive"` in every other case. -/
theorem estimate_attention_center_iff (x y w h frame_width frame_height : Nat) :
    ((estimate_attention_status x y w h frame_width frame_height).1 = "Attentive" ↔
      (4 * |((x + w / 2 : ℕ) : ℤ) - ((frame_width / 2 : ℕ) : ℤ)| < (frame_width : ℤ) ∧
       4 * |((y + h / 2 : ℕ) : ℤ) - ((frame_height / 2 : ℕ) : ℤ)| < (frame_height : ℤ))) ∧
    ((estimate_attention_status x y w h frame_width frame_height).1 = "Attentive" ∨
     (estimate_attention_status x y w h frame_width frame_height).1 = "Not attentive") := by
  simp only [estimate_attention_status]
  split
  · rename_i hcond
    refine ⟨⟨fun _ => ?_, fun _ => rfl⟩, Or.inl rfl⟩
    exact ⟨(abs_sub_lt_quarter_iff _ _ _).mp hcond.1,
           (abs_sub_lt_quarter_iff _ _ _).mp hcond.2⟩
  · rename_i hcond
    refine ⟨⟨fun hE => absurd hE (by decide), fun hZ => ?_⟩, Or.inr rfl⟩
    exact absurd ⟨(abs_sub_lt_quarter_iff _ _ _).mpr hZ.1,
                  (abs_sub_lt_quarter_iff _ _ _).mpr hZ.2⟩ hcond

lemma keys_any_iff (att : Attendance) (k : String) :
    (att.any (fun p => p.1 = k)) = true ↔ k ∈ att.map Prod.fst := by
  simp only [List.any_eq_true, decide_eq_true_eq, List.mem_map]

lemma dictInsert_fst (att : Attendance) (k : String) (v : SInfo) :
    (dictInsert att k v).map Prod.fst =
      if k ∈ att.map Prod.fst then att.map Prod.fst else att.map Prod.fst ++ [k] := by
  simp only [dictInsert]
  split
  · rename_i hany
    rw [if_pos ((keys_any_iff att k).mp hany), List.map_map]
    refine List.map_congr_left fun p hp => ?_
    by_cases hpk : p.1 = k
    · simp [Function.comp, hpk]
    · simp [Function.comp, hpk]
  · rename_i hany
    rw [if_neg fun hmem => hany ((keys_any_iff att k).mpr hmem)]
    simp

lemma keys_nodup_dictInsert (att : Attendance) (k : String) (v : SInfo)
    (h : (att.map Prod.fst).Nodup) : ((dictInsert att k v).map Prod.fst).Nodup := by
  rw [dictInsert_fst]
  split
  · exact h
  · rename_i hmem
    refine List.Nodup.append h (List.nodup_singleton k) ?_
    intro a ha hb
    rw [List.mem_singleton] at hb
    exact hmem (hb ▸ ha)

lemma keys_mem_dictInsert_self (att : Attendance) (k : String) (v : SInfo) :
    k ∈ (dictInsert att k v).map Prod.fst := by
  rw [dictInsert_fst]
  split
  · rename_i hmem
    exact hmem
  · simp

lemma keys_mono_dictInsert (att : Attendance) (k : String) (v : SInfo) (q : String)
    (hq : q ∈ att.map Prod.fst) : q ∈ (dictInsert att k v).map Prod.fst := by
  rw [dictInsert_fst]
  split
  · exact hq
  · exact List.mem_append_left _ hq

lemma foldl_keys_nodup (students : List Student) (att : Attendance)
    (h : (att.map Prod.fst).Nodup) :
    ((students.foldl (fun a row => dictInsert a row.roll_no (initInfo row)) att).map
      Prod.fst).Nodup := by
  induction students generalizing att with
  | nil => exact h
  | cons s rest ih => exact ih _ (keys_nodup_dictInsert _ _ _ h)

lemma foldl_keys_mono (students : List Student) (att : Attendance) (q : String)
    (hq : q ∈ att.map Prod.fst) :
    q ∈ (students.foldl (fun a row => dictInsert a row.roll_no (initInfo row)) att).map
      Prod.fst := by
  induction students generalizing att with
  | nil => exact hq
  | cons s rest ih => exact ih _ (keys_mono_dictInsert _ _ _ _ hq)

lemma init_keys_nodup (students : List Student) :
    ((init_attendance_dict students).map Prod.fst).Nodup :=
  foldl_keys_nodup students [] (by simp)

lemma foldl_keys_of_mem (students : List Student) (s : Student) (hs : s ∈ students)
    (att : Attendance) :
    s.roll_no ∈ (students.foldl (fun a row => dictInsert a row.roll_no (initInfo row))
      att).map Prod.fst := by
  induction students generalizing att with
  | nil => cases hs
  | cons a rest ih =>
    rcases List.mem_cons.mp hs with h1 | h1
    · subst h1
      exact foldl_keys_mono rest _ _ (keys_mem_dictInsert_self att s.roll_no (initInfo s))
    · exact ih h1 _

lemma mem_init_keys (students : List Student) (s : Student) (hs : s ∈ students) :
    s.roll_no ∈ (init_attendance_dict students).map Prod.fst :=
  foldl_keys_of_mem students s hs []

lemma reportRowOf_rollNo (tf : Nat) (d t : String) (kv : String × SInfo) :
    (reportRowOf tf d t kv).rollNo = kv.1 := by
  simp only [reportRowOf]
  split <;> rfl

lemma reportRowOf_sessionDate (tf : Nat) (d t : String) (kv : String × SInfo) :
    (reportRowOf tf d t kv).sessionDate = d := by
  simp only [reportRowOf]
  split <;> rfl

lemma reportRowOf_sessionTime (tf : Nat) (d t : String) (kv : String × SInfo) :
    (reportRowOf tf d t kv).sessionTime = t := by
  simp only [reportRowOf]
  split <;> rfl

lemma countP_report (att : Attendance) (tf : Nat) (d t k : String) :
    (compute_session_report att tf d t).countP
      (fun row => decide (row.rollNo = k ∧ row.sessionDate = d ∧ row.sessionTime = t)) =
    (att.map Prod.fst).count k := by
  simp only [compute_session_report, List.countP_map, List.count_eq_countP]
  refine List.countP_congr fun kv hkv => ?_
  simp only [Function.comp_apply, reportRowOf_rollNo, reportRowOf_sessionDate,
    reportRowOf_sessionTime]
  by_cases hx : kv.1 = k <;> simp [hx]

/-- C2: for every students table and session stamp, the report built from the
session-initial attendance dictionary has exactly one row per dictionary key:
as many rows as entries, roll numbers in dictionary order, every row stamped
with the session date and time, every registered student's roll number among
the keys (even if never seen on camera), and each (roll, date, time)
combination occurring on exactly one row. -/
theorem compute_session_report_one_row_per_student (students : List Student)
    (total_frames : Nat) (session_date session_time : String) :
    (compute_session_report (init_attendance_dict students) total_frames
        session_date session_time).length = (init_attendance_dict students).length ∧
    (compute_session_report (init_attendance_dict students) total_frames
        session_date session_time).map (fun row => row.rollNo) =
      (init_attendance_dict students).map Prod.fst ∧
    (∀ row ∈ compute_session_report (init_attendance_dict students) total_frames
        session_date session_time,
      row.sessionDate = session_date ∧ row.sessionTime = session_time) ∧
    (∀ s ∈ students, s.roll_no ∈ (init_attendance_dict students).map Prod.fst) ∧
    (∀ k ∈ (init_attendance_dict students).map Prod.fst,
      (compute_session_report (init_attendance_dict students) total_frames
          session_date session_time).countP
        (fun row => decide (row.rollNo = k ∧ row.sessionDate = session_date ∧
          row.sessionTime = session_time)) = 1) := by
  refine ⟨List.length_map _ _, ?_, ?_, fun s hs => mem_init_keys students s hs, fun k hk => ?_⟩
  · simp only [compute_session_report, List.map_map]
    exact List.map_congr_left fun kv _ => reportRowOf_rollNo _ _ _ kv
  · intro row hrow
    obtain ⟨kv, _, hkv⟩ := List.mem_map.mp hrow
    exact hkv ▸ ⟨reportRowOf_sessionDate _ _ _ kv, reportRowOf_sessionTime _ _ _ kv⟩
  · rw [countP_report]
    exact List.count_eq_one_of_mem (init_keys_nodup students) hk

/-- Witness for C2 at a one-student table. -/
theorem compute_session_report_one_row_per_student_witness :
    studentW.roll_no ∈ (init_attendance_dict [studentW]).map Prod.fst ∧
    (compute_session_report (init_attendance_dict [studentW]) 3 "2026-10-01"
        "09:00:00").countP
      (fun row => decide (row.rollNo = "101" ∧ row.sessionDate = "2026-10-01" ∧
        row.sessionTime = "09:00:00")) = 1 :=
  ⟨(compute_session_report_one_row_per_student [studentW] 3 "2026-10-01"
      "09:00:00").2.2.2.1 studentW (by decide),
   (compute_session_report_one_row_per_student [studentW] 3 "2026-10-01"
      "09:00:00").2.2.2.2 "101" (by decide)⟩

lemma foldl_best_mem (c : String → Nat) (ks : List String) (k : String) :
    ks.foldl (fun best e => if c best < c e then e else best) k = k ∨
    ks.foldl (fun best e => if c best < c e then e else best) k ∈ ks := by
  induction ks generalizing k with
  | nil => exact Or.inl rfl
  | cons a rest ih =>
    simp only [List.foldl_cons]
    rcases ih (if c k < c a then a else k) with h | h
    · rw [h]
      split
      · exact Or.inr (List.mem_cons_self a rest)
      · exact Or.inl rfl
    · exact Or.inr (List.mem_cons_of_mem a h)

lemma foldl_best_ge_start (c : String → Nat) (ks : List String) (k : String) :
    c k ≤ c (ks.foldl (fun best e => if c best < c e then e else best) k) := by
  induction ks generalizing k with
  | nil => exact le_refl _
  | cons a rest ih =>
    simp only [List.foldl_cons]
    refine le_trans ?_ (ih (if c k < c a then a else k))
    split
    · rename_i hlt
      exact le_of_lt hlt
    · exact le_refl _

lemma foldl_best_ge_all (c : String → Nat) (ks : List String) (k : String) :
    ∀ e ∈ ks, c e ≤ c (ks.foldl (fun best e => if c best < c e then e else best) k) := by
  induction ks generalizing k with
  | nil =>
    intro e he
    cases he
  | cons a rest ih =>
    intro e he
    simp only [List.foldl_cons]
    rcases List.mem_cons.mp he with h1 | h1
    · subst h1
      refine le_trans ?_ (foldl_best_ge_start c rest _)
      split
      · exact le_refl _
      · rename_i hnlt
        exact le_of_not_lt hnlt
    · exact ih _ e h1

lemma mostCommon1_spec (l : List String) (hne : l ≠ []) :
    mostCommon1 l ∈ l ∧ ∀ e ∈ l, l.count e ≤ l.count (mostCommon1 l) := by
  match l with
  | [] => exact absurd rfl hne
  | a :: rest =>
    constructor
    · rcases foldl_best_mem (fun s => (a :: rest).count s) rest a with h | h
      · rw [mostCommon1, h]
        exact List.mem_cons_self a rest
      · exact List.mem_cons_of_mem a h
    · intro e he
      rcases List.mem_cons.mp he with h1 | h1
      · rw [h1]
        exact foldl_best_ge_start (fun s => (a :: rest).count s) rest a
      · exact foldl_best_ge_all (fun s => (a :: rest).count s) rest a e h1

lemma bround_le {x : ℚ} {B : ℤ} (h : x ≤ B) : bround x ≤ B := by
  have hfle : ⌊x⌋ ≤ B := (Int.floor_mono h).trans_eq (Int.floor_intCast B)
  simp only [bround]
  split
  · exact hfle
  · rename_i hr
    have h2 : (1 : ℚ) / 2 ≤ x - ⌊x⌋ := le_of_not_lt hr
    have hlt : ⌊x⌋ < B := by
      by_contra hc
      push_neg at hc
      have hc2 : (B : ℚ) ≤ ((⌊x⌋ : ℤ) : ℚ) := by exact_mod_cast hc
      linarith
    split
    · omega
    · split
      · exact le_of_lt hlt
      · omega

lemma bround_zero : bround 0 = 0 := by
  norm_num [bround]

lemma round2_zero : round2 0 = 0 := by
  norm_num [round2, bround_zero]

lemma round2_le (q : ℚ) (B : ℕ) (h : q ≤ B) : round2 q ≤ B := by
  have h1 : q * 100 ≤ ((B * 100 : ℤ) : ℚ) := by
    push_cast
    linarith
  have h2 : bround (q * 100) ≤ (B * 100 : ℤ) := bround_le h1
  rw [round2, div_le_iff₀ (by norm_num : (0 : ℚ) < 100)]
  calc ((bround (q * 100) : ℤ) : ℚ) ≤ ((B * 100 : ℤ) : ℚ) := by exact_mod_cast h2
    _ = (B : ℚ) * 100 := by push_cast; ring

/-- C3: the report row of a student is `"Absent"` with zero percentages and
`"N/A"` emotion exactly when `frames_present` is 0; otherwise it is
`"Present"`, the presence percentage is `frames_present / max(total_frames,1)
* 100` rounded to 2 decimals, the attention percentage is
`frames_attentive / frames_present * 100` rounded to 2 decimals, and the
dominant emotion is a maximal-frequency label of the student's recorded
emotion list (`"unknown"` when that list is empty). -/
theorem compute_session_report_row_fields (total_frames : Nat) (d t : String)
    (kv : String × SInfo) :
    (kv.2.frames_present = 0 →
      (reportRowOf total_frames d t kv).status = "Absent" ∧
      (reportRowOf total_frames d t kv).presentPct = 0 ∧
      (reportRowOf total_frames d t kv).attentivePct = 0 ∧
      (reportRowOf total_frames d t kv).dominantEmotion = "N/A") ∧
    (kv.2.frames_present ≠ 0 →
      (reportRowOf total_frames d t kv).status = "Present" ∧
      (reportRowOf total_frames d t kv).presentPct =
        round2 ((kv.2.frames_present : ℚ) / ((max total_frames 1 : ℕ) : ℚ) * 100) ∧
      (reportRowOf total_frames d t kv).attentivePct =
        round2 ((kv.2.frames_attentive : ℚ) / (kv.2.frames_present : ℚ) * 100) ∧
      (kv.2.dominant_emotions = [] →
        (reportRowOf total_frames d t kv).dominantEmotion = "unknown") ∧
      (kv.2.dominant_emotions ≠ [] →
        (reportRowOf total_frames d t kv).dominantEmotion ∈ kv.2.dominant_emotions ∧
        ∀ e ∈ kv.2.dominant_emotions,
          kv.2.dominant_emotions.count e ≤
            kv.2.dominant_emotions.count
              (reportRowOf total_frames d t kv).dominantEmotion)) := by
  simp only [reportRowOf]
  split
  · rename_i h0
    exact ⟨fun _ => ⟨rfl, round2_zero, round2_zero, rfl⟩, fun hne => absurd h0 hne⟩
  · rename_i h0
    refine ⟨fun hz => absurd hz h0, fun _ => ⟨rfl, rfl, rfl, ?_, ?_⟩⟩
    · intro hes
      simp only [hes, if_pos]
    · intro hes
      simp only [if_neg hes]
      exact mostCommon1_spec kv.2.dominant_emotions hes

/-- Witness for C3: an absent entry and a present entry with emotions. -/
theorem compute_session_report_row_fields_witness :
    (reportRowOf 3 "2026-10-01" "09:00:00" ("101", initInfo studentW)).status = "Absent" ∧
    (reportRowOf 3 "2026-10-01" "09:00:00" ("101", infoSeenW)).status = "Present" ∧
    (reportRowOf 3 "2026-10-01" "09:00:00" ("101", infoSeenW)).dominantEmotion ∈
      infoSeenW.dominant_emotions :=
  ⟨((compute_session_report_row_fields 3 "2026-10-01" "09:00:00"
      ("101", initInfo studentW)).1 (by decide)).1,
   ((compute_session_report_row_fields 3 "2026-10-01" "09:00:00"
      ("101", infoSeenW)).2 (by decide)).1,
   (((compute_session_report_row_fields 3 "2026-10-01" "09:00:00"
      ("101", infoSeenW)).2 (by decide)).2.2.2.2 (by decide)).1⟩

lemma markPresent_le (info : SInfo) (b : Bool) (em : String)
    (h : info.frames_attentive ≤ info.frames_present) :
    (markPresent info b em).frames_attentive ≤ (markPresent info b em).frames_present := by
  simp only [markPresent]
  cases b <;> simp <;> omega

lemma updateForFace_inv (identify : Face → Option String) (emotionOf : Face → String)
    (fw fh : Nat) (att : Attendance) (f : Face)
    (h : ∀ kv ∈ att, kv.2.frames_attentive ≤ kv.2.frames_present) :
    ∀ kv ∈ updateForFace identify emotionOf fw fh att f,
      kv.2.frames_attentive ≤ kv.2.frames_present := by
  simp only [updateForFace]
  split
  · exact h
  · rename_i roll hm
    split
    · intro kv hkv
      obtain ⟨p, hp, hpe⟩ := List.mem_map.mp hkv
      by_cases hpk : p.1 = roll
      · rw [← hpe, if_pos hpk]
        exact markPresent_le p.2 _ _ (h p hp)
      · rw [← hpe, if_neg hpk]
        exact h p hp
    · exact h

lemma foldl_update_inv (identify : Face → Option String) (emotionOf : Face → String)
    (fw fh : Nat) (faces : List Face) (att : Attendance)
    (h : ∀ kv ∈ att, kv.2.frames_attentive ≤ kv.2.frames_present) :
    ∀ kv ∈ faces.foldl (updateForFace identify emotionOf fw fh) att,
      kv.2.frames_attentive ≤ kv.2.frames_present := by
  induction faces generalizing att with
  | nil => exact h
  | cons f rest ih =>
    exact ih _ (updateForFace_inv identify emotionOf fw fh att f h)

lemma runFrom_inv (identify : Face → Option String) (emotionOf : Face → String)
    (fw fh : Nat) (frames : List (List Face)) (n : Nat) (att : Attendance)
    (h : ∀ kv ∈ att, kv.2.frames_attentive ≤ kv.2.frames_present) :
    ∀ kv ∈ runFrom identify emotionOf fw fh n frames att,
      kv.2.frames_attentive ≤ kv.2.frames_present := by
  induction frames generalizing n att with
  | nil => exact h
  | cons faces rest ih =>
    refine ih _ _ ?_
    simp only [processFrame]
    split
    · exact foldl_update_inv identify emotionOf fw fh faces att h
    · exact h

lemma dictInsert_values (P : SInfo → Prop) (att : Attendance) (k : String) (v : SInfo)
    (hatt : ∀ kv ∈ att, P kv.2) (hv : P v) :
    ∀ kv ∈ dictInsert att k v, P kv.2 := by
  simp only [dictInsert]
  split
  · intro kv hkv
    obtain ⟨p, hp, hpe⟩ := List.mem_map.mp hkv
    by_cases hpk : p.1 = k
    · rw [← hpe, if_pos hpk]
      exact hv
    · rw [← hpe, if_neg hpk]
      exact hatt p hp
  · intro kv hkv
    rcases List.mem_append.mp hkv with h1 | h1
    · exact hatt kv h1
    · rw [List.mem_singleton] at h1
      subst h1
      exact hv

lemma init_attendance_values (P : SInfo → Prop) (students : List Student)
    (hP : ∀ s : Student, P (initInfo s)) :
    ∀ kv ∈ init_attendance_dict students, P kv.2 := by
  unfold init_attendance_dict
  suffices hgen : ∀ att : Attendance, (∀ kv ∈ att, P kv.2) →
      ∀ kv ∈ students.foldl (fun a row => dictInsert a row.roll_no (initInfo row)) att,
        P kv.2 by
    exact hgen [] (by simp)
  induction students with
  | nil => exact fun att hatt => hatt
  | cons s rest ih =>
    intro att hatt
    exact ih _ (dictInsert_values P att s.roll_no (initInfo s) hatt (hP s))

lemma attentivePct_le_100 (tf : Nat) (d t : String) (kv : String × SInfo)
    (h : kv.2.frames_attentive ≤ kv.2.frames_present) :
    (reportRowOf tf d t kv).attentivePct ≤ 100 := by
  simp only [reportRowOf]
  split
  · show round2 0 ≤ 100
    rw [round2_zero]
    norm_num
  · rename_i hfp
    show round2 ((kv.2.frames_attentive : ℚ) / (kv.2.frames_present : ℚ) * 100) ≤ 100
    have hfp' : (0 : ℚ) < (kv.2.frames_present : ℚ) := by
      exact_mod_cast Nat.pos_of_ne_zero hfp
    have hq : (kv.2.frames_attentive : ℚ) / (kv.2.frames_present : ℚ) * 100 ≤
        ((100 : ℕ) : ℚ) := by
      have h1 : (kv.2.frames_attentive : ℚ) / (kv.2.frames_present : ℚ) ≤ 1 := by
        rw [div_le_one hfp']
        exact_mod_cast h
      push_cast
      linarith
    have h2 := round2_le _ 100 hq
    exact_mod_cast h2

/-- C9: starting from the session-initial attendance dictionary, after any
number of loop iterations every student's `frames_attentive` is at most its
`frames_present` (the attentive counter is only bumped in an iteration that
also bumps the present counter), and consequently every report row's
attention percentage is at most 100 (both divisions in
`compute_session_report` having nonzero divisors in their branch). -/
theorem frames_attentive_le_frames_present
    (identify : Face → Option String) (emotionOf : Face → String) (fw fh : Nat)
    (students : List Student) (frames : List (List Face)) (start total_frames : Nat)
    (d t : String) :
    (∀ kv ∈ runFrom identify emotionOf fw fh start frames (init_attendance_dict students),
      kv.2.frames_attentive ≤ kv.2.frames_present) ∧
    (∀ row ∈ compute_session_report
        (runFrom identify emotionOf fw fh start frames (init_attendance_dict students))
        total_frames d t,
      row.attentivePct ≤ 100) := by
  have hinit : ∀ kv ∈ init_attendance_dict students,
      kv.2.frames_attentive ≤ kv.2.frames_present :=
    init_attendance_values (fun info => info.frames_attentive ≤ info.frames_present)
      students (fun _ => le_refl 0)
  have hrun := runFrom_inv identify emotionOf fw fh frames start
    (init_attendance_dict students) hinit
  refine ⟨hrun, ?_⟩
  intro row hrow
  obtain ⟨kv, hkv, hkve⟩ := List.mem_map.mp hrow
  exact hkve ▸ attentivePct_le_100 total_frames d t kv (hrun kv hkv)

/-- Witness for C9 at a zero-frame session over one student. -/
theorem frames_attentive_le_frames_present_witness :
    (reportRowOf 3 "2026-10-01" "09:00:00" ("101", initInfo studentW)).attentivePct ≤ 100 :=
  (frames_attentive_le_frames_present identifyW emotionW 640 480 [studentW] [] 0 3
    "2026-10-01" "09:00:00").2 _ (List.mem_cons_self _ _)

/-- C5 counterexample: on a captured frame whose counter is 1 (not a
multiple of `PROCESS_EVERY_N_FRAMES = 3`) a detected face receives no
external API dispatch at all, refuting the claim that the verification and
emotion APIs are called for every face of every captured frame. -/
theorem live_loop_offbeat_frame_skips_api :
    faceW ∈ [faceW] ∧
    faceW ∉ (processFrame identifyW emotionW 1 640 480 [faceW]
      (init_attendance_dict [studentW])).2 := by
  constructor
  · exact List.mem_cons_self _ _
  · show faceW ∉ ([] : List Face)
    simp

/-- C5 (amended): on every processed frame — one whose frame counter is a
multiple of `PROCESS_EVERY_N_FRAMES = 3` — the external APIs are dispatched
for every detected face of that frame and the attendance counters are
updated by folding the per-face counter update over those faces; on every
other captured frame no API call is made and no counter is updated (the
dispatch log is empty and the attendance dictionary is returned unchanged). -/
theorem live_loop_api_per_face_on_heavy_frames
    (identify : Face → Option String) (emotionOf : Face → String)
    (total_frames fw fh : Nat) (faces : List Face) (att : Attendance) :
    (total_frames % PROCESS_EVERY_N_FRAMES = 0 →
      (processFrame identify emotionOf total_frames fw fh faces att).2 = faces ∧
      (processFrame identify emotionOf total_frames fw fh faces att).1 =
        faces.foldl (updateForFace identify emotionOf fw fh) att) ∧
    (total_frames % PROCESS_EVERY_N_FRAMES ≠ 0 →
      (processFrame identify emotionOf total_frames fw fh faces att).2 = [] ∧
      (processFrame identify emotionOf total_frames fw fh faces att).1 = att) := by
  constructor
  · intro h
    simp [processFrame, h]
  · intro h
    simp [processFrame, h]

/-- Witness for the amended C5: full dispatch at frame counter 3, no
dispatch and unchanged counters at frame counter 1. -/
theorem live_loop_api_per_face_on_heavy_frames_witness :
    (processFrame identifyW emotionW 3 640 480 [faceW]
      (init_attendance_dict [studentW])).2 = [faceW] ∧
    (processFrame identifyW emotionW 1 640 480 [faceW]
      (init_attendance_dict [studentW])).2 = [] ∧
    (processFrame identifyW emotionW 1 640 480 [faceW]
      (init_attendance_dict [studentW])).1 = init_attendance_dict [studentW] :=
  ⟨((live_loop_api_per_face_on_heavy_frames identifyW emotionW 3 640 480 [faceW]
      (init_attendance_dict [studentW])).1 (by decide)).1,
   ((live_loop_api_per_face_on_heavy_frames identifyW emotionW 1 640 480 [faceW]
      (init_attendance_dict [studentW])).2 (by decide)).1,
   ((live_loop_api_per_face_on_heavy_frames identifyW emotionW 1 640 480 [faceW]
      (init_attendance_dict [studentW])).2 (by decide)).2⟩

lemma identifyLoop_some_spec (hI : String → Bool) (v : String → Option ℚ)
    (students : List Student) :
    ∀ (best : Option (String × ℚ)) (r : String) (d : ℚ),
    identifyLoop hI v students best = some (r, d) →
    (best = some (r, d) ∨
      ∃ s ∈ students, hI s.image_path = true ∧ v s.image_path = some d ∧ s.roll_no = r) ∧
    (∀ p : String × ℚ, best = some p → d ≤ p.2) ∧
    (∀ s2 ∈ students, hI s2.image_path = true →
      ∀ d2, v s2.image_path = some d2 → d ≤ d2) := by
  induction students with
  | nil =>
    intro best r d hres
    simp only [identifyLoop] at hres
    refine ⟨Or.inl hres, fun p hp => ?_, by simp⟩
    rw [hres] at hp
    simp only [Option.some.injEq] at hp
    rw [← hp]
  | cons s rest ih =>
    intro best r d hres
    simp only [identifyLoop] at hres
    by_cases himg : hI s.image_path = true
    · rw [if_pos himg] at hres
      cases hv : v s.image_path with
      | none =>
        rw [hv] at hres
        obtain ⟨hb, hmin, hall⟩ := ih best r d hres
        refine ⟨?_, hmin, ?_⟩
        · rcases hb with hb | ⟨s2, hs2, hp⟩
          · exact Or.inl hb
          · exact Or.inr ⟨s2, List.mem_cons_of_mem _ hs2, hp⟩
        · intro s2 hs2 h2 d2 hd2
          rcases List.mem_cons.mp hs2 with h3 | h3
          · rw [h3, hv] at hd2
            cases hd2
          · exact hall s2 h3 h2 d2 hd2
      | some dist =>
        rw [hv] at hres
        cases best with
        | none =>
          obtain ⟨hb, hmin, hall⟩ := ih (some (s.roll_no, dist)) r d hres
          have hds : d ≤ dist := hmin (s.roll_no, dist) rfl
          refine ⟨?_, ?_, ?_⟩
          · rcases hb with hb | ⟨s2, hs2, hp⟩
            · simp only [Option.some.injEq, Prod.mk.injEq] at hb
              exact Or.inr ⟨s, List.mem_cons_self s rest, himg, hb.2 ▸ hv, hb.1⟩
            · exact Or.inr ⟨s2, List.mem_cons_of_mem _ hs2, hp⟩
          · intro p hp
            exact absurd hp (by simp)
          · intro s2 hs2 h2 d2 hd2
            rcases List.mem_cons.mp hs2 with h3 | h3
            · rw [h3, hv] at hd2
              simp only [Option.some.injEq] at hd2
              exact hd2 ▸ hds
            · exact hall s2 h3 h2 d2 hd2
        | some p =>
          obtain ⟨br, bd⟩ := p
          replace hres : (if dist < bd then
              identifyLoop hI v rest (some (s.roll_no, dist))
            else identifyLoop hI v rest (some (br, bd))) = some (r, d) := hres
          by_cases hlt : dist < bd
          · rw [if_pos hlt] at hres
            obtain ⟨hb, hmin, hall⟩ := ih (some (s.roll_no, dist)) r d hres
            have hds : d ≤ dist := hmin (s.roll_no, dist) rfl
            refine ⟨?_, ?_, ?_⟩
            · rcases hb with hb | ⟨s2, hs2, hp⟩
              · simp only [Option.some.injEq, Prod.mk.injEq] at hb
                exact Or.inr ⟨s, List.mem_cons_self s rest, himg, hb.2 ▸ hv, hb.1⟩
              · exact Or.inr ⟨s2, List.mem_cons_of_mem _ hs2, hp⟩
            · intro p2 hp2
              simp only [Option.some.injEq] at hp2
              rw [← hp2]
              exact le_of_lt (lt_of_le_of_lt hds hlt)
            · intro s2 hs2 h2 d2 hd2
              rcases List.mem_cons.mp hs2 with h3 | h3
              · rw [h3, hv] at hd2
                simp only [Option.some.injEq] at hd2
                exact hd2 ▸ hds
              · exact hall s2 h3 h2 d2 hd2
          · rw [if_neg hlt] at hres
            obtain ⟨hb, hmin, hall⟩ := ih (some (br, bd)) r d hres
            have hdbd : d ≤ bd := hmin (br, bd) rfl
            have hbdd : bd ≤ dist := le_of_not_lt hlt
            refine ⟨?_, ?_, ?_⟩
            · rcases hb with hb | ⟨s2, hs2, hp⟩
              · exact Or.inl hb
              · exact Or.inr ⟨s2, List.mem_cons_of_mem _ hs2, hp⟩
            · intro p2 hp2
              simp only [Option.some.injEq] at hp2
              rw [← hp2]
              exact hdbd
            · intro s2 hs2 h2 d2 hd2
              rcases List.mem_cons.mp hs2 with h3 | h3
              · rw [h3, hv] at hd2
                simp only [Option.some.injEq] at hd2
                exact hd2 ▸ le_trans hdbd hbdd
              · exact hall s2 h3 h2 d2 hd2
    · rw [if_neg himg] at hres
      obtain ⟨hb, hmin, hall⟩ := ih best r d hres
      refine ⟨?_, hmin, ?_⟩
      · rcases hb with hb | ⟨s2, hs2, hp⟩
        · exact Or.inl hb
        · exact Or.inr ⟨s2, List.mem_cons_of_mem _ hs2, hp⟩
      · intro s2 hs2 h2 d2 hd2
        rcases List.mem_cons.mp hs2 with h3 | h3
        · rw [h3] at h2
          exact absurd h2 himg
        · exact hall s2 h3 h2 d2 hd2

/-- C10: `identify_student` answers a roll number only when some per-student
verification succeeded and the minimal distance over all successful
comparisons is strictly below `FACE_MATCH_THRESHOLD`, and the answered roll
number attains that minimal distance; and whenever every successful
comparison (if any) is at distance at least the threshold — which covers
missing image files, failing calls, and too-distant best matches — it
answers `none`. -/
theorem identify_student_threshold (students : List Student)
    (hasImage : String → Bool) (verify : String → Option ℚ) :
    (∀ r, identify_student students hasImage verify = some r →
      ∃ s ∈ students, hasImage s.image_path = true ∧ s.roll_no = r ∧
        ∃ d, verify s.image_path = some d ∧ d < FACE_MATCH_THRESHOLD ∧
          ∀ s2 ∈ students, hasImage s2.image_path = true →
            ∀ d2, verify s2.image_path = some d2 → d ≤ d2) ∧
    ((∀ s ∈ students, hasImage s.image_path = true →
        ∀ d, verify s.image_path = some d → FACE_MATCH_THRESHOLD ≤ d) →
      identify_student students hasImage verify = none) := by
  constructor
  · intro r hr
    unfold identify_student at hr
    cases hloop : identifyLoop hasImage verify students none with
    | none =>
      rw [hloop] at hr
      cases hr
    | some p =>
      obtain ⟨r0, d0⟩ := p
      rw [hloop] at hr
      replace hr : (if d0 < FACE_MATCH_THRESHOLD then some r0 else none) = some r := hr
      by_cases hth : d0 < FACE_MATCH_THRESHOLD
      · rw [if_pos hth] at hr
        simp only [Option.some.injEq] at hr
        obtain ⟨hb, _, hall⟩ := identifyLoop_some_spec hasImage verify students none r0 d0 hloop
        rcases hb with hb | ⟨s, hs, h1, h2, h3⟩
        · cases hb
        · exact ⟨s, hs, h1, hr ▸ h3, d0, h2, hth, hall⟩
      · rw [if_neg hth] at hr
        cases hr
  · intro hge
    unfold identify_student
    cases hloop : identifyLoop hasImage verify students none with
    | none => rfl
    | some p =>
      obtain ⟨r0, d0⟩ := p
      obtain ⟨hb, _, _⟩ := identifyLoop_some_spec hasImage verify students none r0 d0 hloop
      rcases hb with hb | ⟨s, hs, h1, h2, _⟩
      · cases hb
      · show (if d0 < FACE_MATCH_THRESHOLD then some r0 else none) = none
        rw [if_neg (not_lt.mpr (hge s hs h1 d0 h2))]

/-- Witness for C10: two registered images at distances 7/10 and 3/10. -/
theorem identify_student_threshold_witness :
    ∃ s ∈ [studentW, studentW2], hasImageW s.image_path = true ∧ s.roll_no = "102" ∧
      ∃ d, verifyW s.image_path = some d ∧ d < FACE_MATCH_THRESHOLD ∧
        ∀ s2 ∈ [studentW, studentW2], hasImageW s2.image_path = true →
          ∀ d2, verifyW s2.image_path = some d2 → d ≤ d2 :=
  (identify_student_threshold [studentW, studentW2] hasImageW verifyW).1 "102" (by decide)

end EyeClass
